import Mathlib

/-!
Shallow embedding of the "TEN MASTER" match-maker game engine.

The grid is a flat JavaScript array of `number | null`, read as a 2-D grid
of a fixed column count.  Because the resolver can read past the end of the
array (JavaScript yields `undefined` there), a cell read is modelled by the
three-valued type `JSVal`.  Randomness (`Math.floor(Math.random() * 9) + 1`)
is modelled by passing the stream of drawn values explicitly as a function
`rand : Nat → Int`.
-/

/-- A grid cell as stored: a number or the empty marker `null`. -/
abbrev CellValue := Option Int

/-- The value of a JavaScript array read `grid[i]`: a number, `null`,
or `undefined` when the index is out of bounds. -/
inductive JSVal where
  | num (n : Int)
  | jnull
  | jundef
deriving DecidableEq, Repr

/-- `grid[i]` for a nonnegative index `i`. -/
def jsIndex (grid : List CellValue) (i : Nat) : JSVal :=
  match grid[i]? with
  | some (some n) => JSVal.num n
  | some none => JSVal.jnull
  | none => JSVal.jundef

/-- `grid[i]` for a possibly negative integer index. -/
def jsIndexI (grid : List CellValue) (i : Int) : JSVal :=
  if 0 ≤ i then jsIndex grid i.toNat else JSVal.jundef

/-- JavaScript `v1 + v2 === 10` on two array reads: true only when both are
numbers summing to 10 (`null` is excluded earlier; `undefined` makes the
sum `NaN`, which is not `=== 10`). -/
def jsSumIs10 (v1 v2 : JSVal) : Bool :=
  match v1, v2 with
  | JSVal.num a, JSVal.num b => decide (a + b = 10)
  | _, _ => false

/-- JavaScript strict equality `v1 === v2` on two array reads. -/
def jsEq (v1 v2 : JSVal) : Bool :=
  match v1, v2 with
  | JSVal.num a, JSVal.num b => decide (a = b)
  | JSVal.jnull, JSVal.jnull => true
  | JSVal.jundef, JSVal.jundef => true
  | _, _ => false

/-- `MatchPathType` of `gameLogic.ts` (the `null` result is `Option.none`). -/
inductive MatchPathType where
  | sequential
  | sequentialWrap
  | horizontal
  | vertical
  | diagonal
deriving DecidableEq, Repr

/-- The sequential scan: `for (let i = start + 1; i < end; i++)` checking
`grid[i] !== null`; clear when every strictly intermediate raw index holds
the empty marker. -/
def seqClear (grid : List CellValue) (s e : Nat) : Bool :=
  (List.range' (s + 1) (e - (s + 1))).all fun i => decide (jsIndex grid i = JSVal.jnull)

/-- The horizontal scan between columns `minX` and `maxX` on row `y`. -/
def horizClear (grid : List CellValue) (y minX maxX cols : Nat) : Bool :=
  (List.range' (minX + 1) (maxX - (minX + 1))).all fun x =>
    decide (jsIndex grid (y * cols + x) = JSVal.jnull)

/-- The vertical scan between rows `minY` and `maxY` on column `x`. -/
def vertClear (grid : List CellValue) (x minY maxY cols : Nat) : Bool :=
  (List.range' (minY + 1) (maxY - (minY + 1))).all fun y =>
    decide (jsIndex grid (y * cols + x) = JSVal.jnull)

/-- The diagonal scan: `stepX = dx / (absDx || 1)`, cells
`(x1 + i*stepX, y1 + i*stepY)` for `i = 1 .. absD - 1`, indexed by
`getIdx(curX, curY, cols) = curY * cols + curX` (integer arithmetic,
negative indices read `undefined`). -/
def diagClear (grid : List CellValue) (x1 y1 : Nat) (dx dy : Int) (absD cols : Nat) : Bool :=
  (List.range' 1 (absD - 1)).all fun i =>
    decide (jsIndexI grid
      (((y1 : Int) + (i : Int) * (dy / (if absD = 0 then 1 else (absD : Int)))) * (cols : Int)
        + ((x1 : Int) + (i : Int) * (dx / (if absD = 0 then 1 else (absD : Int)))))
      = JSVal.jnull)

/-- `getMatchPath` of `gameLogic.ts`: guards, then sequential (with wrap
classification), horizontal, vertical, diagonal, in source order.
`x = idx % cols`, `y = ⌊idx / cols⌋`. -/
def getMatchPath (idx1 idx2 : Nat) (grid : List CellValue) (cols : Nat) :
    Option MatchPathType :=
  let v1 := jsIndex grid idx1
  let v2 := jsIndex grid idx2
  if v1 = JSVal.jnull ∨ v2 = JSVal.jnull ∨ idx1 = idx2 then none
  else if ¬ (jsSumIs10 v1 v2 = true ∨ jsEq v1 v2 = true) then none
  else
    let x1 := idx1 % cols
    let y1 := idx1 / cols
    let x2 := idx2 % cols
    let y2 := idx2 / cols
    let s := min idx1 idx2
    let e := max idx1 idx2
    if seqClear grid s e = true then
      some (if s / cols ≠ e / cols ∧ e % cols < s % cols then
        MatchPathType.sequentialWrap else MatchPathType.sequential)
    else if y1 = y2 then
      if horizClear grid y1 (min x1 x2) (max x1 x2) cols = true then
        some MatchPathType.horizontal else none
    else if x1 = x2 then
      if vertClear grid x1 (min y1 y2) (max y1 y2) cols = true then
        some MatchPathType.vertical else none
    else if ((x2 : Int) - (x1 : Int)).natAbs = ((y2 : Int) - (y1 : Int)).natAbs then
      if diagClear grid x1 y1 ((x2 : Int) - (x1 : Int)) ((y2 : Int) - (y1 : Int))
          (((x2 : Int) - (x1 : Int)).natAbs) cols = true then
        some MatchPathType.diagonal else none
    else none

/-- `areMatchable` of `src/logic/gameLogic.ts`: the same guards and scans as
`getMatchPath`, returning a plain boolean. -/
def areMatchable (idx1 idx2 : Nat) (grid : List CellValue) (cols : Nat) : Bool :=
  let v1 := jsIndex grid idx1
  let v2 := jsIndex grid idx2
  if v1 = JSVal.jnull ∨ v2 = JSVal.jnull ∨ idx1 = idx2 then false
  else if ¬ (jsSumIs10 v1 v2 = true ∨ jsEq v1 v2 = true) then false
  else
    let x1 := idx1 % cols
    let y1 := idx1 / cols
    let x2 := idx2 % cols
    let y2 := idx2 / cols
    if seqClear grid (min idx1 idx2) (max idx1 idx2) = true then true
    else if y1 = y2 then horizClear grid y1 (min x1 x2) (max x1 x2) cols
    else if x1 = x2 then vertClear grid x1 (min y1 y2) (max y1 y2) cols
    else if ((x2 : Int) - (x1 : Int)).natAbs = ((y2 : Int) - (y1 : Int)).natAbs then
      diagClear grid x1 y1 ((x2 : Int) - (x1 : Int)) ((y2 : Int) - (y1 : Int))
        (((x2 : Int) - (x1 : Int)).natAbs) cols
    else false

/-- One row-slicing pass of `collapseEmptyRows`.  The source iterates
`y = 0 .. ceil(len/cols) - 1`, slicing `grid.slice(y*cols, (y+1)*cols)` and
keeping rows containing a non-`null` cell; here the loop is fuel-structured
recursion (fuel `grid.length` dominates the number of rows for `cols ≥ 1`). -/
def collapseGo (fuel : Nat) (grid : List CellValue) (cols : Nat) : List CellValue :=
  match fuel, grid with
  | _, [] => []
  | 0, _ => []
  | f + 1, g =>
    (if (g.take cols).any fun v => decide (v ≠ none) then g.take cols else []) ++
      collapseGo f (g.drop cols) cols

/-- `collapseEmptyRows` of `gameLogic.ts`: drop every all-empty row,
concatenating the surviving rows in order. -/
def collapseEmptyRows (grid : List CellValue) (cols : Nat) : List CellValue :=
  collapseGo grid.length grid cols

/-- `GRID_COLUMNS` of `gameLogic.ts`. -/
def GRID_COLUMNS : Nat := 10

/-- `INITIAL_FILL_COUNT` of `gameLogic.ts`. -/
def INITIAL_FILL_COUNT : Nat := 35

/-- `MAX_REFILLS` of `gameLogic.ts`. -/
def MAX_REFILLS : Nat := 5

/-- `createInitialGrid` of `gameLogic.ts`: push `fillCount` random digits,
then pad with `null` to complete the last row.  The `i`-th random draw is
`rand i`. -/
def createInitialGrid (cols fillCount : Nat) (rand : Nat → Int) : List CellValue :=
  let grid : List CellValue := (List.range fillCount).map fun i => some (rand i)
  let remainingInRow := cols - grid.length % cols
  if remainingInRow < cols ∧ remainingInRow ≠ 0 then
    grid ++ List.replicate remainingInRow (none : CellValue)
  else grid

/-- The `lastIndex` loop of `refillGrid`: the highest index holding a
non-`null` value (`none` models the `-1` sentinel). -/
def lastNonNull : List CellValue → Option Nat
  | [] => none
  | x :: xs =>
    match lastNonNull xs with
    | some j => some (j + 1)
    | none => if x ≠ none then some 0 else none

/-- `refillGrid` of `gameLogic.ts`: collect the non-`null` values, truncate
after the last non-`null` cell, append the collected values, pad the last
row; an all-empty grid falls back to `createInitialGrid`. -/
def refillGrid (grid : List CellValue) (cols : Nat) (rand : Nat → Int) : List CellValue :=
  let existingNumbers := grid.filter fun v => decide (v ≠ none)
  match lastNonNull grid with
  | none => createInitialGrid cols INITIAL_FILL_COUNT rand
  | some lastIndex =>
    let prunedGrid := grid.take (lastIndex + 1)
    let nextGrid := prunedGrid ++ existingNumbers
    let remainingInRow := cols - nextGrid.length % cols
    if remainingInRow < cols ∧ remainingInRow ≠ 0 then
      nextGrid ++ List.replicate remainingInRow (none : CellValue)
    else nextGrid

/-- `UndoSnapshot` of `App.tsx`. -/
structure UndoSnapshot where
  grid : List CellValue
  score : Int
deriving DecidableEq, Repr

/-- The session state owned by `App.tsx` (post-initialization; transient
display-only state such as messages and animations is not part of it). -/
structure SessionState where
  grid : List CellValue
  selectedIdx : Option Nat
  refillsRemaining : Nat
  score : Int
  undoUsed : Bool
  undoSnapshot : Option UndoSnapshot
deriving DecidableEq, Repr

/-- The user-visible non-fatal messages reported by the handlers. -/
inductive GameMsg where
  | noRefillsLeft
  | refilled
deriving DecidableEq, Repr

/-- `isWin` of `App.tsx`: the session is won when the grid is empty. -/
def isWin (s : SessionState) : Bool := s.grid.length == 0

/-- `handleCellClick` of `App.tsx`: ignore clicks resolving to `null`;
select / deselect; on a matchable pair capture the undo snapshot when
`undoUsed` is false, blank both cells, add 10 to the score, clear the
selection and collapse; on a failed match move the selection. -/
def handleCellClick (cols : Nat) (idx : Nat) (s : SessionState) : SessionState :=
  if jsIndex s.grid idx = JSVal.jnull then s
  else
    match s.selectedIdx with
    | none => { s with selectedIdx := some idx }
    | some sel =>
      if sel = idx then { s with selectedIdx := none }
      else if areMatchable sel idx s.grid cols = true then
        let snap := if s.undoUsed = false then
            some { grid := s.grid, score := s.score } else s.undoSnapshot
        let newGrid := (s.grid.set sel none).set idx none
        { s with
          grid := collapseEmptyRows newGrid cols
          score := s.score + 10
          selectedIdx := none
          undoSnapshot := snap }
      else { s with selectedIdx := some idx }

/-- `handleRefill` of `App.tsx`: with an exhausted quota, report
"No refills left!" and change nothing; otherwise apply `refillGrid` and
decrement the quota, reporting "Refilled!". -/
def handleRefill (cols : Nat) (rand : Nat → Int) (s : SessionState) :
    SessionState × GameMsg :=
  if s.refillsRemaining ≤ 0 then (s, GameMsg.noRefillsLeft)
  else
    ({ s with grid := refillGrid s.grid cols rand,
              refillsRemaining := s.refillsRemaining - 1 },
     GameMsg.refilled)

example : areMatchable 0 1 [some 5, some 5] 10 = true := by decide
example : getMatchPath 2 3 [none, none, some 5, some 5, none, none] 3
    = some MatchPathType.sequentialWrap := by decide
example : getMatchPath 0 3 [some 3, none, none, some 7] 4
    = some MatchPathType.sequential := by decide
example : collapseEmptyRows [none, none, some 1, none] 2 = [some 1, none] := by decide
example : collapseEmptyRows [none, none, none, none] 2 = [] := by decide
example : refillGrid [some 5, none, some 3, none] 2 (fun _ => 9)
    = [some 5, none, some 3, some 5, some 3, none] := by decide
example : areMatchable 4 5 [some 5, none, some 3, none] 2 = true := by decide
example : getMatchPath 0 2 [some 5, some 1, some 5, none] 2
    = some MatchPathType.vertical := by decide
example : getMatchPath 0 3 [some 5, some 1, some 1, some 5] 2
    = some MatchPathType.diagonal := by decide

/-! ### Lemmas about `collapseEmptyRows` -/

theorem collapseGo_nil (f cols : Nat) : collapseGo f [] cols = [] := by
  cases f <;> rfl

theorem collapseGo_cons (f cols : Nat) (x : CellValue) (xs : List CellValue) :
    collapseGo (f + 1) (x :: xs) cols =
      (if ((x :: xs).take cols).any (fun v => decide (v ≠ none)) then (x :: xs).take cols
        else []) ++ collapseGo f ((x :: xs).drop cols) cols := rfl

theorem collapseGo_congr (cols : Nat) (hc : 1 ≤ cols) :
    ∀ f₁ f₂ (g : List CellValue), g.length ≤ f₁ → g.length ≤ f₂ →
      collapseGo f₁ g cols = collapseGo f₂ g cols := by
  intro f₁
  induction f₁ with
  | zero =>
    intro f₂ g hg _
    have : g = [] := List.eq_nil_of_length_eq_zero (Nat.le_zero.mp hg)
    subst this
    rw [collapseGo_nil, collapseGo_nil]
  | succ f ih =>
    intro f₂ g h₁ h₂
    cases g with
    | nil => rw [collapseGo_nil, collapseGo_nil]
    | cons x xs =>
      cases f₂ with
      | zero => simp at h₂
      | succ f₂' =>
        rw [collapseGo_cons, collapseGo_cons]
        congr 1
        have hd : ((x :: xs).drop cols).length ≤ f := by
          simp only [List.length_drop, List.length_cons] at *
          omega
        have hd' : ((x :: xs).drop cols).length ≤ f₂' := by
          simp only [List.length_drop, List.length_cons] at *
          omega
        exact ih f₂' _ hd hd'

theorem collapse_nil (cols : Nat) : collapseEmptyRows [] cols = [] := rfl

theorem collapse_cons (cols : Nat) (hc : 1 ≤ cols) (g : List CellValue) (hg : g ≠ []) :
    collapseEmptyRows g cols =
      (if (g.take cols).any (fun v => decide (v ≠ none)) then g.take cols else []) ++
        collapseEmptyRows (g.drop cols) cols := by
  cases g with
  | nil => exact absurd rfl hg
  | cons x xs =>
    show collapseGo (xs.length + 1) (x :: xs) cols = _
    rw [collapseGo_cons]
    congr 1
    apply collapseGo_congr cols hc
    · simp only [List.length_drop, List.length_cons]; omega
    · exact le_refl _

theorem collapse_append_full (cols : Nat) (hc : 1 ≤ cols)
    (row rest : List CellValue) (hlen : row.length = cols) :
    collapseEmptyRows (row ++ rest) cols =
      (if row.any (fun v => decide (v ≠ none)) then row else []) ++
        collapseEmptyRows rest cols := by
  have hrow : row ≠ [] := by
    intro h; subst h; simp at hlen; omega
  have hne : row ++ rest ≠ [] := by
    intro h
    exact hrow (List.append_eq_nil.mp h).1
  rw [collapse_cons cols hc _ hne, List.take_left' hlen, List.drop_left' hlen]

theorem collapse_all_none (cols : Nat) (hc : 1 ≤ cols) :
    ∀ (g : List CellValue), (∀ v ∈ g, v = none) → collapseEmptyRows g cols = [] := by
  have main : ∀ n (g : List CellValue), g.length ≤ n →
      (∀ v ∈ g, v = none) → collapseEmptyRows g cols = [] := by
    intro n
    induction n with
    | zero =>
      intro g hg _
      have : g = [] := List.eq_nil_of_length_eq_zero (Nat.le_zero.mp hg)
      subst this; exact collapse_nil cols
    | succ n ih =>
      intro g hg hall
      cases g with
      | nil => exact collapse_nil cols
      | cons x xs =>
        rw [collapse_cons cols hc _ (by simp)]
        have h1 : ¬ (((x :: xs).take cols).any (fun v => decide (v ≠ none)) = true) := by
          simp only [List.any_eq_true, decide_eq_true_eq, ne_eq, not_exists, not_and, not_not]
          intro v hv
          exact hall v (List.take_subset _ _ hv)
        rw [if_neg h1, List.nil_append]
        apply ih
        · simp only [List.length_drop, List.length_cons] at *; omega
        · intro v hv
          exact hall v (List.drop_subset _ _ hv)
  intro g
  exact main g.length g (le_refl _)

theorem collapse_idem (cols : Nat) (hc : 1 ≤ cols) :
    ∀ (g : List CellValue),
      collapseEmptyRows (collapseEmptyRows g cols) cols = collapseEmptyRows g cols := by
  have main : ∀ n (g : List CellValue), g.length ≤ n →
      collapseEmptyRows (collapseEmptyRows g cols) cols = collapseEmptyRows g cols := by
    intro n
    induction n with
    | zero =>
      intro g hg
      have : g = [] := List.eq_nil_of_length_eq_zero (Nat.le_zero.mp hg)
      subst this
      rw [collapse_nil]
      exact collapse_nil cols
    | succ n ih =>
      intro g hg
      cases g with
      | nil =>
        rw [collapse_nil]
        exact collapse_nil cols
      | cons x xs =>
        have hrest : ((x :: xs).drop cols).length ≤ n := by
          simp only [List.length_drop, List.length_cons] at *; omega
        have hstep := collapse_cons cols hc (x :: xs) (by simp)
        by_cases hrow : ((x :: xs).take cols).any (fun v => decide (v ≠ none)) = true
        · rw [if_pos hrow] at hstep
          by_cases hlen : (x :: xs).length ≤ cols
          · have hdrop : (x :: xs).drop cols = [] := List.drop_eq_nil_of_le hlen
            have htake : (x :: xs).take cols = x :: xs := List.take_of_length_le hlen
            rw [hdrop, collapse_nil, List.append_nil, htake] at hstep
            rw [hstep, hstep]
          · have htlen : ((x :: xs).take cols).length = cols := by
              simp only [List.length_take]
              omega
            rw [hstep, collapse_append_full cols hc _ _ htlen, if_pos hrow,
              ih _ hrest]
        · have hrow' : ¬ (((x :: xs).take cols).any (fun v => decide (v ≠ none)) = true) := hrow
          rw [if_neg hrow'] at hstep
          rw [List.nil_append] at hstep
          rw [hstep, ih _ hrest]
  intro g
  exact main g.length g (le_refl _)

/-! ### Lemmas about padding, `lastNonNull` and `refillGrid` -/

theorem padArith (cols m : Nat) (hc : 1 ≤ cols) :
    (if cols - m % cols < cols ∧ cols - m % cols ≠ 0 then m + (cols - m % cols) else m) % cols
        = 0 ∧
    m ≤ (if cols - m % cols < cols ∧ cols - m % cols ≠ 0 then m + (cols - m % cols) else m) ∧
    (if cols - m % cols < cols ∧ cols - m % cols ≠ 0 then m + (cols - m % cols) else m)
        < m + cols := by
  have h1 : m % cols < cols := Nat.mod_lt _ (by omega)
  have hq : cols * (m / cols) + m % cols = m := Nat.div_add_mod m cols
  by_cases h : cols - m % cols < cols ∧ cols - m % cols ≠ 0
  · rw [if_pos h]
    refine ⟨?_, by omega, by omega⟩
    have e3 : m + (cols - m % cols) = cols * (m / cols) + cols := by
      generalize cols * (m / cols) = t at hq
      omega
    rw [e3, ← Nat.mul_succ]
    exact Nat.mul_mod_right _ _
  · rw [if_neg h]
    have h0 : m % cols = 0 := by omega
    exact ⟨h0, le_refl _, by omega⟩

theorem createInitialGrid_length (cols fillCount : Nat) (rand : Nat → Int) :
    (createInitialGrid cols fillCount rand).length =
      if cols - fillCount % cols < cols ∧ cols - fillCount % cols ≠ 0 then
        fillCount + (cols - fillCount % cols) else fillCount := by
  simp only [createInitialGrid, List.length_map, List.length_range]
  by_cases h : cols - fillCount % cols < cols ∧ cols - fillCount % cols ≠ 0
  · rw [if_pos h, if_pos h]
    simp
  · rw [if_neg h, if_neg h]
    simp

theorem lastNonNull_eq_none_iff (g : List CellValue) :
    lastNonNull g = none ↔ ∀ v ∈ g, v = none := by
  induction g with
  | nil => simp [lastNonNull]
  | cons x xs ih =>
    rw [List.forall_mem_cons]
    show (match lastNonNull xs with
      | some j => some (j + 1)
      | none => if x ≠ none then some 0 else none) = none ↔ _
    cases h : lastNonNull xs with
    | some j =>
      constructor
      · intro hh; exact absurd hh (by simp)
      · rintro ⟨_, hxs⟩
        have h0 := ih.mpr hxs
        rw [h] at h0
        exact absurd h0 (by simp)
    | none =>
      by_cases hx : x = none
      · rw [if_neg (fun hk => hk hx)]
        constructor
        · intro _; exact ⟨hx, ih.mp h⟩
        · intro _; rfl
      · rw [if_pos hx]
        constructor
        · intro hh; exact absurd hh (by simp)
        · rintro ⟨hx0, _⟩; exact absurd hx0 hx

theorem lastNonNull_drop (g : List CellValue) (j : Nat) (h : lastNonNull g = some j) :
    ∀ v ∈ g.drop (j + 1), v = none := by
  induction g generalizing j with
  | nil => simp [lastNonNull] at h
  | cons x xs ih =>
    have h' : (match lastNonNull xs with
      | some j' => some (j' + 1)
      | none => if x ≠ none then some 0 else none) = some j := h
    cases hxs : lastNonNull xs with
    | some j' =>
      rw [hxs] at h'
      simp only [Option.some.injEq] at h'
      subst h'
      intro v hv
      rw [List.drop_succ_cons] at hv
      exact ih j' hxs v hv
    | none =>
      rw [hxs] at h'
      by_cases hx : x = none
      · rw [if_neg (fun hk => hk hx)] at h'
        exact absurd h' (by simp)
      · rw [if_pos hx] at h'
        simp only [Option.some.injEq] at h'
        subst h'
        intro v hv
        rw [List.drop_succ_cons, List.drop_zero] at hv
        exact (lastNonNull_eq_none_iff xs).mp hxs v hv

theorem filter_take_lastNonNull (g : List CellValue) (j : Nat)
    (h : lastNonNull g = some j) :
    (g.take (j + 1)).filter (fun v => decide (v ≠ none)) =
      g.filter (fun v => decide (v ≠ none)) := by
  conv_rhs => rw [← List.take_append_drop (j + 1) g]
  rw [List.filter_append]
  have hnil : (g.drop (j + 1)).filter (fun v => decide (v ≠ none)) = [] := by
    rw [List.filter_eq_nil_iff]
    intro v hv
    simp only [decide_eq_true_eq, ne_eq, not_not]
    exact lastNonNull_drop g j h v hv
  rw [hnil, List.append_nil]

theorem refillGrid_eq_of_none (g : List CellValue) (cols : Nat) (rand : Nat → Int)
    (h : lastNonNull g = none) :
    refillGrid g cols rand = createInitialGrid cols INITIAL_FILL_COUNT rand := by
  simp only [refillGrid, h]

theorem refillGrid_eq_of_some (g : List CellValue) (cols : Nat) (rand : Nat → Int)
    (j : Nat) (h : lastNonNull g = some j) :
    refillGrid g cols rand =
      if cols - (g.take (j + 1) ++ g.filter fun v => decide (v ≠ none)).length % cols < cols ∧
          cols - (g.take (j + 1) ++ g.filter fun v => decide (v ≠ none)).length % cols ≠ 0 then
        (g.take (j + 1) ++ g.filter fun v => decide (v ≠ none)) ++
          List.replicate
            (cols - (g.take (j + 1) ++ g.filter fun v => decide (v ≠ none)).length % cols)
            (none : CellValue)
      else g.take (j + 1) ++ g.filter fun v => decide (v ≠ none) := by
  simp only [refillGrid, h]

theorem refillGrid_length_mod (g : List CellValue) (cols : Nat) (rand : Nat → Int)
    (hc : 1 ≤ cols) : (refillGrid g cols rand).length % cols = 0 := by
  cases h : lastNonNull g with
  | none =>
    rw [refillGrid_eq_of_none g cols rand h, createInitialGrid_length]
    exact (padArith cols INITIAL_FILL_COUNT hc).1
  | some j =>
    rw [refillGrid_eq_of_some g cols rand j h, apply_ite List.length]
    simp only [List.length_append, List.length_replicate]
    exact (padArith cols
      ((g.take (j + 1)).length + (g.filter fun v => decide (v ≠ none)).length) hc).1

theorem filter_nn_idem (l : List CellValue) :
    (l.filter fun v => decide (v ≠ none)).filter (fun v => decide (v ≠ none)) =
      l.filter fun v => decide (v ≠ none) := by
  rw [List.filter_filter]
  congr 1
  funext a
  exact Bool.and_self _

theorem refill_filter_eq (g : List CellValue) (cols : Nat) (rand : Nat → Int) (j : Nat)
    (h : lastNonNull g = some j) :
    (refillGrid g cols rand).filter (fun v => decide (v ≠ none)) =
      (g.filter fun v => decide (v ≠ none)) ++ (g.filter fun v => decide (v ≠ none)) := by
  rw [refillGrid_eq_of_some g cols rand j h]
  by_cases hcond : cols - (g.take (j + 1) ++ g.filter fun v => decide (v ≠ none)).length % cols
      < cols ∧
      cols - (g.take (j + 1) ++ g.filter fun v => decide (v ≠ none)).length % cols ≠ 0
  · rw [if_pos hcond]
    simp only [List.filter_append]
    rw [filter_take_lastNonNull g j h, filter_nn_idem,
      List.filter_replicate_of_neg (by simp), List.append_nil]
  · rw [if_neg hcond]
    simp only [List.filter_append]
    rw [filter_take_lastNonNull g j h, filter_nn_idem]

/-! ### The claims -/

/-- C1: the session is in the `Won` state iff the grid length is exactly
zero; a non-empty grid whose every cell is the empty marker is not a win,
and collapsing such a grid yields the empty grid (length zero), after which
the win is reported. -/
theorem c1_win_iff_empty (s : SessionState) (cols : Nat) (hc : 1 ≤ cols) :
    (isWin s = true ↔ s.grid.length = 0) ∧
    (0 < s.grid.length → (∀ v ∈ s.grid, v = none) →
      isWin s = false ∧ (collapseEmptyRows s.grid cols).length = 0) := by
  constructor
  · simp [isWin]
  · intro hpos hall
    constructor
    · simp only [isWin, beq_eq_false_iff_ne, ne_eq]
      omega
    · rw [collapse_all_none cols hc s.grid hall]
      rfl

/-- C1 witness: a 2-cell all-empty grid with one column pair is not a win. -/
theorem c1_win_iff_empty_witness :
    isWin { grid := [none, none], selectedIdx := none, refillsRemaining := 5,
            score := 0, undoUsed := false, undoSnapshot := none } = false :=
  ((c1_win_iff_empty
      { grid := [none, none], selectedIdx := none, refillsRemaining := 5,
        score := 0, undoUsed := false, undoSnapshot := none } 2 (by decide)).2
    (by decide) (by decide)).1

/-- C3: `collapseEmptyRows` is idempotent for any column count `cols ≥ 1`. -/
theorem c3_collapse_idempotent (g : List CellValue) (cols : Nat) (hc : 1 ≤ cols) :
    collapseEmptyRows (collapseEmptyRows g cols) cols = collapseEmptyRows g cols :=
  collapse_idem cols hc g

/-- C3 witness: idempotence at a concrete grid. -/
theorem c3_collapse_idempotent_witness :
    collapseEmptyRows (collapseEmptyRows [some 1, none, none, none] 2) 2 =
      collapseEmptyRows [some 1, none, none, none] 2 :=
  c3_collapse_idempotent [some 1, none, none, none] 2 (by decide)

/-- C4: `refillGrid` never decreases the count of non-empty cells, keeps the
non-empty values of the input as a subsequence (in order) of the output, and
when the input holds at least one non-empty cell the output is the input up
to its last non-empty cell followed by a duplicate run of the non-empty
values and trailing empty padding. -/
theorem c4_refill_preserves (g : List CellValue) (cols : Nat) (rand : Nat → Int)
    (hc : 1 ≤ cols) :
    (g.filter fun v => decide (v ≠ none)).Sublist
        ((refillGrid g cols rand).filter fun v => decide (v ≠ none)) ∧
    (g.filter fun v => decide (v ≠ none)).length ≤
        ((refillGrid g cols rand).filter fun v => decide (v ≠ none)).length ∧
    ∀ j, lastNonNull g = some j →
      ∃ pad, refillGrid g cols rand =
        g.take (j + 1) ++ (g.filter fun v => decide (v ≠ none)) ++
          List.replicate pad (none : CellValue) := by
  cases h : lastNonNull g with
  | none =>
    have hf : g.filter (fun v => decide (v ≠ none)) = [] := by
      rw [List.filter_eq_nil_iff]
      intro v hv
      simp only [decide_eq_true_eq, ne_eq, not_not]
      exact (lastNonNull_eq_none_iff g).mp h v hv
    refine ⟨hf ▸ List.nil_sublist _, hf ▸ Nat.zero_le _, ?_⟩
    intro j hj
    exact absurd hj (by simp)
  | some j =>
    have hfeq := refill_filter_eq g cols rand j h
    have hsub : (g.filter fun v => decide (v ≠ none)).Sublist
        ((refillGrid g cols rand).filter fun v => decide (v ≠ none)) := by
      rw [hfeq]
      exact List.sublist_append_left _ _
    refine ⟨hsub, hsub.length_le, ?_⟩
    intro j' hj'
    have hjj : j' = j := by
      simpa using hj'.symm
    subst hjj
    rw [refillGrid_eq_of_some g cols rand j' h]
    by_cases hcond : cols -
        (g.take (j' + 1) ++ g.filter fun v => decide (v ≠ none)).length % cols < cols ∧
        cols - (g.take (j' + 1) ++ g.filter fun v => decide (v ≠ none)).length % cols ≠ 0
    · rw [if_pos hcond]
      exact ⟨_, by rw [List.append_assoc]⟩
    · rw [if_neg hcond]
      exact ⟨0, by rw [List.replicate_zero, List.append_nil]⟩

/-- C4 witness: order preservation at a concrete grid. -/
theorem c4_refill_preserves_witness :
    ([some 5, none, some 3, none].filter fun v => decide (v ≠ none)).Sublist
      ((refillGrid [some 5, none, some 3, none] 2 fun _ => 1).filter
        fun v => decide (v ≠ none)) :=
  (c4_refill_preserves [some 5, none, some 3, none] 2 (fun _ => 1) (by decide)).1

/-- C8: a refill with exhausted quota is rejected with the
"No refills left!" message and the session state is unchanged; with a
positive quota the grid is replaced by `refillGrid` of it and the quota
drops by exactly one. -/
theorem c8_refill_quota (cols : Nat) (rand : Nat → Int) (s : SessionState) :
    (s.refillsRemaining = 0 → handleRefill cols rand s = (s, GameMsg.noRefillsLeft)) ∧
    (0 < s.refillsRemaining →
      handleRefill cols rand s =
        ({ s with grid := refillGrid s.grid cols rand,
                  refillsRemaining := s.refillsRemaining - 1 }, GameMsg.refilled)) := by
  constructor
  · intro h
    simp [handleRefill, h]
  · intro h
    simp only [handleRefill]
    rw [if_neg (by omega)]

/-- C8 witness: rejection at quota zero for a concrete session. -/
theorem c8_refill_quota_witness :
    handleRefill 10 (fun _ => 1)
        { grid := [some 1, some 2], selectedIdx := none, refillsRemaining := 0,
          score := 30, undoUsed := false, undoSnapshot := none } =
      ({ grid := [some 1, some 2], selectedIdx := none, refillsRemaining := 0,
         score := 30, undoUsed := false, undoSnapshot := none }, GameMsg.noRefillsLeft) :=
  (c8_refill_quota 10 (fun _ => 1)
      { grid := [some 1, some 2], selectedIdx := none, refillsRemaining := 0,
        score := 30, undoUsed := false, undoSnapshot := none }).1 rfl

/-- C9: `createInitialGrid` returns a grid whose length is the smallest
multiple of `cols` at least `fillCount` (characterised as: divisible by
`cols`, at least `fillCount`, and less than `fillCount + cols`), and
`refillGrid` always returns a grid whose length is a multiple of `cols`. -/
theorem c9_length_alignment (cols fillCount : Nat) (rand : Nat → Int) (hc : 1 ≤ cols) :
    ((createInitialGrid cols fillCount rand).length % cols = 0 ∧
      fillCount ≤ (createInitialGrid cols fillCount rand).length ∧
      (createInitialGrid cols fillCount rand).length < fillCount + cols) ∧
    ∀ g : List CellValue, (refillGrid g cols rand).length % cols = 0 := by
  constructor
  · rw [createInitialGrid_length]
    exact padArith cols fillCount hc
  · intro g
    exact refillGrid_length_mod g cols rand hc

/-- C9 witness: alignment of the default 35-cell fill in 10 columns. -/
theorem c9_length_alignment_witness :
    (createInitialGrid 10 35 (fun _ => 1)).length % 10 = 0 :=
  (c9_length_alignment 10 35 (fun _ => 1) (by decide)).1.1

/-- C10: the resolver accepts the out-of-bounds pair
`(grid.length, grid.length + 1)`: both reads yield `undefined`, which is not
the `null` guard value, strict equality holds between the two `undefined`
reads, and the sequential scan between the adjacent indices is empty. -/
theorem c10_oob_match (g : List CellValue) (cols : Nat) (hc : 1 ≤ cols) :
    areMatchable g.length (g.length + 1) g cols = true := by
  have e1 : jsIndex g g.length = JSVal.jundef := by
    simp [jsIndex, List.getElem?_eq_none (le_refl g.length)]
  have e2 : jsIndex g (g.length + 1) = JSVal.jundef := by
    simp [jsIndex, List.getElem?_eq_none (Nat.le_succ _)]
  have h5 : seqClear g (min g.length (g.length + 1)) (max g.length (g.length + 1)) = true := by
    rw [Nat.min_eq_left (Nat.le_succ _), Nat.max_eq_right (Nat.le_succ _)]
    simp [seqClear]
  simp only [areMatchable, e1, e2]
  rw [if_neg ?hg, if_neg ?hv, if_pos h5]
  case hg =>
    rintro (h | h | h)
    · exact JSVal.noConfusion h
    · exact JSVal.noConfusion h
    · omega
  case hv =>
    intro hn
    exact hn (Or.inr rfl)

/-- C10 witness: the out-of-bounds pair `(1, 2)` on a one-cell grid. -/
theorem c10_oob_match_witness : areMatchable 1 2 [some 7] 1 = true :=
  c10_oob_match [some 7] 1 (by decide)

/-- C5: for distinct in-bounds non-empty cells with matching values and a
clear sequential scan between the smaller and larger raw index,
`getMatchPath` classifies the pair as `sequential-wrap` exactly when the two
cells occupy different rows and the column of the larger index is strictly
less than the column of the smaller index, and as `sequential` otherwise. -/
theorem c5_seq_wrap (grid : List CellValue) (cols idx1 idx2 : Nat) (v1 v2 : Int)
    (h1 : grid[idx1]? = some (some v1)) (h2 : grid[idx2]? = some (some v2))
    (hne : idx1 ≠ idx2) (hv : v1 + v2 = 10 ∨ v1 = v2)
    (hclear : seqClear grid (min idx1 idx2) (max idx1 idx2) = true) :
    getMatchPath idx1 idx2 grid cols =
      some (if min idx1 idx2 / cols ≠ max idx1 idx2 / cols ∧
              max idx1 idx2 % cols < min idx1 idx2 % cols
            then MatchPathType.sequentialWrap else MatchPathType.sequential) := by
  have e1 : jsIndex grid idx1 = JSVal.num v1 := by simp [jsIndex, h1]
  have e2 : jsIndex grid idx2 = JSVal.num v2 := by simp [jsIndex, h2]
  simp only [getMatchPath, e1, e2]
  rw [if_neg ?hg, if_neg ?hv, if_pos hclear]
  case hg =>
    rintro (h | h | h)
    · exact JSVal.noConfusion h
    · exact JSVal.noConfusion h
    · exact hne h
  case hv =>
    intro hn
    rcases hv with h | h
    · exact hn (Or.inl (by simp [jsSumIs10, h]))
    · exact hn (Or.inr (by simp [jsEq, h]))

/-- C5 witness: a wrap-classified pair across a row boundary. -/
theorem c5_seq_wrap_witness :
    getMatchPath 2 3 [none, none, some 5, some 5, none, none] 3 =
      some (if min 2 3 / 3 ≠ max 2 3 / 3 ∧ max 2 3 % 3 < min 2 3 % 3
            then MatchPathType.sequentialWrap else MatchPathType.sequential) :=
  c5_seq_wrap [none, none, some 5, some 5, none, none] 3 2 3 5 5
    (by decide) (by decide) (by decide) (Or.inr rfl) (by decide)

/-- C2 counterexample: a session holding an earlier snapshot, with
`undoUsed = false`, commits a match; the snapshot is overwritten with the
pre-match state even though a snapshot already existed, contradicting
"saved iff `undoUsed` is false AND no snapshot exists yet" and "a later
committed match never overwrites it". -/
theorem c2_counterexample :
    areMatchable 0 1 [some 5, some 5] GRID_COLUMNS = true ∧
    (handleCellClick GRID_COLUMNS 1
        { grid := [some 5, some 5], selectedIdx := some 0, refillsRemaining := 5,
          score := 20, undoUsed := false,
          undoSnapshot := some { grid := [some 1, some 9], score := 10 } }).undoSnapshot =
      some { grid := [some 5, some 5], score := 20 } ∧
    (some { grid := [some 1, some 9], score := 10 } : Option UndoSnapshot) ≠
      (some { grid := [some 5, some 5], score := 20 } : Option UndoSnapshot) := by
  decide

/-- C2 amended: when a match is committed via a cell click, the
`UndoSnapshot` of the pre-match grid and score is saved iff `undoUsed` is
false, overwriting any existing snapshot; so it holds the state from
immediately before the most recently committed match, not the first. -/
theorem c2_snapshot_amended (cols idx : Nat) (s : SessionState) (sel : Nat)
    (hsel : s.selectedIdx = some sel) (hne : ¬ sel = idx)
    (hclick : ¬ jsIndex s.grid idx = JSVal.jnull)
    (hm : areMatchable sel idx s.grid cols = true) :
    (handleCellClick cols idx s).undoSnapshot =
      if s.undoUsed = false then some { grid := s.grid, score := s.score }
      else s.undoSnapshot := by
  simp only [handleCellClick, hsel]
  rw [if_neg hclick, if_neg hne, if_pos hm]

/-- C2 amended witness: the snapshot captured at a concrete committed match. -/
theorem c2_snapshot_amended_witness :
    (handleCellClick GRID_COLUMNS 1
        { grid := [some 5, some 5], selectedIdx := some 0, refillsRemaining := 5,
          score := 20, undoUsed := false,
          undoSnapshot := some { grid := [some 1, some 9], score := 10 } }).undoSnapshot =
      if ({ grid := [some 5, some 5], selectedIdx := some 0, refillsRemaining := 5,
            score := 20, undoUsed := false,
            undoSnapshot :=
              some { grid := [some 1, some 9], score := 10 } } : SessionState).undoUsed
          = false then
        some { grid := ([some 5, some 5] : List CellValue), score := (20 : Int) }
      else some { grid := [some 1, some 9], score := 10 } :=
  c2_snapshot_amended GRID_COLUMNS 1 _ 0 rfl (by decide) (by decide) (by decide)

/-- C7: a committed match (distinct selected in-bounds non-empty cells
accepted by `areMatchable`) blanks exactly the two matched cells before the
collapse step, leaves every other cell unchanged, and adds exactly 10 to
the score. -/
theorem c7_match_frame (cols : Nat) (s : SessionState) (sel idx : Nat) (v1 v2 : Int)
    (hsel : s.selectedIdx = some sel) (hne : ¬ sel = idx)
    (h1 : s.grid[sel]? = some (some v1)) (h2 : s.grid[idx]? = some (some v2))
    (hm : areMatchable sel idx s.grid cols = true) :
    (handleCellClick cols idx s).grid =
        collapseEmptyRows ((s.grid.set sel none).set idx none) cols ∧
    (handleCellClick cols idx s).score = s.score + 10 ∧
    ((s.grid.set sel none).set idx none)[sel]? = some none ∧
    ((s.grid.set sel none).set idx none)[idx]? = some none ∧
    ∀ j, ¬ j = sel → ¬ j = idx →
      ((s.grid.set sel none).set idx none)[j]? = s.grid[j]? := by
  have hclick : ¬ jsIndex s.grid idx = JSVal.jnull := by
    simp [jsIndex, h2]
  obtain ⟨hsl, -⟩ := List.getElem?_eq_some_iff.mp h1
  obtain ⟨hil, -⟩ := List.getElem?_eq_some_iff.mp h2
  refine ⟨?_, ?_, ?_, ?_, ?_⟩
  · simp only [handleCellClick, hsel]
    rw [if_neg hclick, if_neg hne, if_pos hm]
  · simp only [handleCellClick, hsel]
    rw [if_neg hclick, if_neg hne, if_pos hm]
  · rw [List.getElem?_set_ne (fun h => hne h.symm),
      List.getElem?_set_self hsl]
  · rw [List.getElem?_set_self (by simpa using hil)]
  · intro j hj1 hj2
    rw [List.getElem?_set_ne (fun h => hj2 h.symm),
      List.getElem?_set_ne (fun h => hj1 h.symm)]

/-- C7 witness: frame effect of the concrete match (0, 1) on `[5, 5]`. -/
theorem c7_match_frame_witness :
    (handleCellClick 10 1
        { grid := [some 5, some 5], selectedIdx := some 0, refillsRemaining := 5,
          score := 0, undoUsed := false, undoSnapshot := none }).grid =
      collapseEmptyRows ((([some 5, some 5] : List CellValue).set 0 none).set 1 none) 10 :=
  (c7_match_frame 10
      { grid := [some 5, some 5], selectedIdx := some 0, refillsRemaining := 5,
        score := 0, undoUsed := false, undoSnapshot := none } 0 1 5 5
      rfl (by decide) (by decide) (by decide) (by decide)).1

/-! ### Symmetry of the resolver -/

theorem jsSumIs10_comm (v1 v2 : JSVal) : jsSumIs10 v1 v2 = jsSumIs10 v2 v1 := by
  cases v1 <;> cases v2 <;> simp [jsSumIs10, Int.add_comm]

theorem jsEq_comm (v1 v2 : JSVal) : jsEq v1 v2 = jsEq v2 v1 := by
  cases v1 <;> cases v2 <;> simp [jsEq, eq_comm]

theorem intDiv_natAbs (d : Int) (A : Nat) (hA : d.natAbs = A) (hd : d ≠ 0) :
    (d / (A : Int)) * (A : Int) = d := by
  have hA0 : (A : Int) ≠ 0 := by
    intro h
    have h1 : A = 0 := by exact_mod_cast h
    rw [← hA] at h1
    exact hd (Int.natAbs_eq_zero.mp h1)
  rcases Int.natAbs_eq d with h | h
  · rw [hA] at h
    rw [h, Int.ediv_self hA0, one_mul]
  · rw [hA] at h
    have e : d / (A : Int) = -1 := by
      rw [h, show -(A : Int) = -1 * A from by ring, Int.mul_ediv_cancel _ hA0]
    rw [e, h]
    ring

theorem intDiv_natAbs_neg (d : Int) (A : Nat) (hA : d.natAbs = A) (hd : d ≠ 0) :
    (-d) / (A : Int) = -(d / (A : Int)) := by
  have hA0 : (A : Int) ≠ 0 := by
    intro h
    have h1 : A = 0 := by exact_mod_cast h
    rw [← hA] at h1
    exact hd (Int.natAbs_eq_zero.mp h1)
  rcases Int.natAbs_eq d with h | h
  · rw [hA] at h
    have e1 : d / (A : Int) = 1 := by rw [h]; exact Int.ediv_self hA0
    have e2 : (-d) / (A : Int) = -1 := by
      rw [h, show -(A : Int) = -1 * A from by ring, Int.mul_ediv_cancel _ hA0]
    rw [e1, e2]
  · rw [hA] at h
    have e1 : d / (A : Int) = -1 := by
      rw [h, show -(A : Int) = -1 * A from by ring, Int.mul_ediv_cancel _ hA0]
    have e2 : (-d) / (A : Int) = 1 := by
      rw [h, neg_neg]
      exact Int.ediv_self hA0
    rw [e1, e2]
    ring

theorem all_range_flip (A : Nat) (P Q : Nat → Bool)
    (h : ∀ i, 1 ≤ i → i < A → Q i = P (A - i)) :
    (List.range' 1 (A - 1)).all P = (List.range' 1 (A - 1)).all Q := by
  rw [Bool.eq_iff_iff]
  simp only [List.all_eq_true, List.mem_range'_1, and_imp]
  constructor
  · intro hp i hi1 hi2
    rw [h i hi1 (by omega)]
    exact hp (A - i) (by omega) (by omega)
  · intro hq i hi1 hi2
    have h2 := h (A - i) (by omega) (by omega)
    rw [show A - (A - i) = i from by omega] at h2
    rw [← h2]
    exact hq (A - i) (by omega) (by omega)

theorem diagClear_comm (grid : List CellValue) (cols x1 y1 x2 y2 : Nat)
    (hx : ¬ (x1 : Int) = (x2 : Int))
    (habs : ((x2 : Int) - (x1 : Int)).natAbs = ((y2 : Int) - (y1 : Int)).natAbs) :
    diagClear grid x1 y1 ((x2 : Int) - (x1 : Int)) ((y2 : Int) - (y1 : Int))
        (((x2 : Int) - (x1 : Int)).natAbs) cols =
      diagClear grid x2 y2 (-((x2 : Int) - (x1 : Int))) (-((y2 : Int) - (y1 : Int)))
        (((x2 : Int) - (x1 : Int)).natAbs) cols := by
  set dx := (x2 : Int) - (x1 : Int) with hdx
  set dy := (y2 : Int) - (y1 : Int) with hdy
  have hdx0 : dx ≠ 0 := sub_ne_zero.mpr (fun h => hx h.symm)
  set A := dx.natAbs with hA
  have hA0 : ¬ A = 0 := by
    intro h
    rw [hA] at h
    exact hdx0 (Int.natAbs_eq_zero.mp h)
  have hdyA : dy.natAbs = A := habs.symm
  have hdy0 : dy ≠ 0 := by
    intro h
    apply hA0
    rw [← hdyA, h]
    rfl
  unfold diagClear
  rw [if_neg hA0]
  have hsx : (-dx) / (A : Int) = -(dx / (A : Int)) :=
    intDiv_natAbs_neg dx A hA.symm hdx0
  have hsy : (-dy) / (A : Int) = -(dy / (A : Int)) :=
    intDiv_natAbs_neg dy A hdyA hdy0
  rw [hsx, hsy]
  apply all_range_flip
  intro i h1 h2
  have hiA : i ≤ A := le_of_lt h2
  have hdxe : (dx / (A : Int)) * (A : Int) = dx := intDiv_natAbs dx A hA.symm hdx0
  have hdye : (dy / (A : Int)) * (A : Int) = dy := intDiv_natAbs dy A hdyA hdy0
  have hx2 : (x2 : Int) = (x1 : Int) + dx := by rw [hdx]; ring
  have hy2 : (y2 : Int) = (y1 : Int) + dy := by rw [hdy]; ring
  have hcast : ((A - i : Nat) : Int) = (A : Int) - (i : Int) := Nat.cast_sub hiA
  set s := dx / (A : Int) with hs
  set t := dy / (A : Int) with ht
  have hidx : ((y2 : Int) + (i : Int) * -t) * (cols : Int) + ((x2 : Int) + (i : Int) * -s)
      = ((y1 : Int) + ((A - i : Nat) : Int) * t) * (cols : Int)
        + ((x1 : Int) + ((A - i : Nat) : Int) * s) := by
    rw [hcast, hx2, hy2, ← hdxe, ← hdye]
    ring
  rw [hidx]

theorem getMatchPath_comm (a b : Nat) (grid : List CellValue) (cols : Nat) :
    getMatchPath a b grid cols = getMatchPath b a grid cols := by
  simp only [getMatchPath]
  by_cases hg : jsIndex grid a = JSVal.jnull ∨ jsIndex grid b = JSVal.jnull ∨ a = b
  · have hg' : jsIndex grid b = JSVal.jnull ∨ jsIndex grid a = JSVal.jnull ∨ b = a := by
      rcases hg with h | h | h
      · exact Or.inr (Or.inl h)
      · exact Or.inl h
      · exact Or.inr (Or.inr h.symm)
    rw [if_pos hg, if_pos hg']
  · have hg' : ¬ (jsIndex grid b = JSVal.jnull ∨ jsIndex grid a = JSVal.jnull ∨ b = a) := by
      rintro (h | h | h)
      · exact hg (Or.inr (Or.inl h))
      · exact hg (Or.inl h)
      · exact hg (Or.inr (Or.inr h.symm))
    rw [if_neg hg, if_neg hg']
    rw [jsSumIs10_comm (jsIndex grid b) (jsIndex grid a),
      jsEq_comm (jsIndex grid b) (jsIndex grid a),
      Nat.min_comm b a, Nat.max_comm b a]
    by_cases hv : ¬ (jsSumIs10 (jsIndex grid a) (jsIndex grid b) = true ∨
        jsEq (jsIndex grid a) (jsIndex grid b) = true)
    · rw [if_pos hv, if_pos hv]
    · rw [if_neg hv, if_neg hv]
      by_cases hseq : seqClear grid (min a b) (max a b) = true
      · rw [if_pos hseq, if_pos hseq]
      · rw [if_neg hseq, if_neg hseq]
        by_cases hy : a / cols = b / cols
        · rw [if_pos hy, if_pos hy.symm,
            Nat.min_comm (b % cols) (a % cols), Nat.max_comm (b % cols) (a % cols), ← hy]
        · have hy' : ¬ b / cols = a / cols := fun h => hy h.symm
          rw [if_neg hy, if_neg hy']
          by_cases hxe : a % cols = b % cols
          · rw [if_pos hxe, if_pos hxe.symm,
              Nat.min_comm (b / cols) (a / cols), Nat.max_comm (b / cols) (a / cols), ← hxe]
          · have hx' : ¬ b % cols = a % cols := fun h => hxe h.symm
            rw [if_neg hxe, if_neg hx']
            have ex : ((a % cols : Nat) : Int) - ((b % cols : Nat) : Int)
                = -(((b % cols : Nat) : Int) - ((a % cols : Nat) : Int)) := by ring
            have ey : ((a / cols : Nat) : Int) - ((b / cols : Nat) : Int)
                = -(((b / cols : Nat) : Int) - ((a / cols : Nat) : Int)) := by ring
            rw [ex, ey, Int.natAbs_neg, Int.natAbs_neg]
            by_cases hd : (((b % cols : Nat) : Int) - ((a % cols : Nat) : Int)).natAbs
                = (((b / cols : Nat) : Int) - ((a / cols : Nat) : Int)).natAbs
            · rw [if_pos hd, if_pos hd]
              have hdc := diagClear_comm grid cols (a % cols) (a / cols) (b % cols)
                (b / cols) (fun h => hxe (by exact_mod_cast h)) hd
              rw [hdc]
            · rw [if_neg hd, if_neg hd]

/-- C6: for any grid, column count at least 1 and in-bounds indices,
`getMatchPath` of a cell with itself is `none`, and `getMatchPath` is
symmetric in its two indices, returned path kind included. -/
theorem c6_resolve_refl_symm (grid : List CellValue) (cols : Nat) (hc : 1 ≤ cols)
    (a b : Nat) (ha : a < grid.length) (hb : b < grid.length) :
    getMatchPath a a grid cols = none ∧
    getMatchPath a b grid cols = getMatchPath b a grid cols := by
  constructor
  · simp [getMatchPath]
  · exact getMatchPath_comm a b grid cols

/-- C6 witness: reflexivity and symmetry at a concrete grid. -/
theorem c6_resolve_refl_symm_witness :
    getMatchPath 0 0 [some 5, some 5] 2 = none ∧
    getMatchPath 0 1 [some 5, some 5] 2 = getMatchPath 1 0 [some 5, some 5] 2 :=
  c6_resolve_refl_symm [some 5, some 5] 2 (by decide) 0 1 (by decide) (by decide)
